import Mathlib

/-!
Verification of the transactional core of `example.py`: the ledger operation
`transfer_funds` and the retry executor `run_transaction`.

The accounts table is embedded as a list of `(id, balance)` rows with the SQL
statements the script issues modelled row-by-row: `SELECT balance FROM accounts
WHERE id = %s` with `fetchone()` is the first matching row, and
`UPDATE accounts SET balance = balance ± %s WHERE id = %s` adds a delta to
every matching row (a no-op when no row matches).  Balances are signed
integers (the column is `INT`).

Failures are an explicit error type mirroring the exception classes the script
distinguishes: `psycopg.errors.SerializationFailure`, any other
`psycopg.Error`, the `RuntimeError` raised for insufficient funds, and the
`TypeError` that `fetchone()[0]` raises when the source row is absent.

The `with conn.transaction()` scope of psycopg (an external collaborator,
specified in the spec as begin/commit/rollback scoping) is embedded as
state-passing: the wrapped block runs against a pending copy of the table,
which is committed when the block is left normally and discarded when it is
left with an exception.
-/

namespace ExampleApp

/-- Account identifiers (UUIDs in the script) are opaque; we use naturals. -/
abbrev AccountId := Nat

/-- One row of the `accounts` table: `(id, balance)`. -/
abbrev Table := List (AccountId × Int)

/-- `SELECT balance FROM accounts WHERE id = %s` followed by `fetchone()`:
the balance of the first row whose id matches, if any. -/
def selectBalance (t : Table) (i : AccountId) : Option Int :=
  (t.find? (fun r => r.1 == i)).map (fun r => r.2)

/-- `UPDATE accounts SET balance = balance + %s WHERE id = %s`: add `d` to the
balance of every row whose id is `i` (no row matching is not an error). -/
def updateAdd (t : Table) (i : AccountId) (d : Int) : Table :=
  t.map (fun r => if r.1 == i then (r.1, r.2 + d) else r)

/-- Total of all balances in the table. -/
def tableSum (t : Table) : Int :=
  (t.map (fun r => r.2)).sum

/-- The exception classes the script can see coming out of a unit of work:
`SerializationFailure` (a `psycopg.Error` subclass), any other `psycopg.Error`,
the `RuntimeError` raised by `transfer_funds` for insufficient funds (carrying
the source id, the required amount and the available balance, in the order of
the message `insufficient funds in {frm}: have {from_balance}, need {amount}`),
and the `TypeError` from subscripting `fetchone()`s `None`. -/
inductive DBError
  | serializationFailure
  | otherPsycopgError
  | insufficientFunds (frm : AccountId) (required : Int) (available : Int)
  | typeError
deriving DecidableEq, Repr

/-- Which errors the `except SerializationFailure` clause catches. -/
def DBError.isSerializationFailure : DBError → Bool
  | .serializationFailure => true
  | _ => false

/-- Which errors are `psycopg.Error`s (caught by the second `except` clause,
which re-raises them; non-psycopg errors propagate uncaught — in both cases
the same error leaves `run_transaction` unchanged). -/
def DBError.isPsycopgError : DBError → Bool
  | .serializationFailure => true
  | .otherPsycopgError => true
  | _ => false

/-- `transfer_funds(conn, frm, to, amount)`: read the source balance
(`fetchone()[0]` raises `TypeError` when the row is absent), raise the
insufficient-funds `RuntimeError` when `from_balance < amount`, otherwise
debit the source and credit the destination by two separate `UPDATE`s. -/
def transfer_funds (t : Table) (frm toId : AccountId) (amount : Int) :
    Except DBError Table :=
  match selectBalance t frm with
  | none => Except.error DBError.typeError
  | some from_balance =>
    if from_balance < amount then
      Except.error (DBError.insufficientFunds frm amount from_balance)
    else
      Except.ok (updateAdd (updateAdd t frm (-amount)) toId amount)

/-- What `run_transaction` can propagate: an error raised by the operation
(`raise e` or uncaught), or the `ValueError` raised after the loop, carrying
the configured `max_retries` (message
`transaction did not succeed after {max_retries} retries`). -/
inductive RunError
  | dbError (e : DBError)
  | retryExhausted (maxRetries : Int)
deriving DecidableEq, Repr

/-- Observable outcome of one `run_transaction` invocation: how many times the
operation was invoked, the committed table afterwards, and the propagated
error, if any. -/
structure RunOutcome where
  calls : Nat
  committed : Table
  err : Option RunError
deriving DecidableEq, Repr

/-- The `for retry in range(1, max_retries + 1)` loop body of
`run_transaction`, inside the transaction scope.  `op` is the unit of work,
indexed by the attempt number (each iteration invokes it once); `committed`
is the state `conn.rollback()` restores; `pending` is the in-transaction
state; `calls` counts invocations of `op` so far.  On success the loop
`return`s (normal exit, no error); on `SerializationFailure` it rolls back and
continues; on any other error the error propagates; when the attempt list is
exhausted the `ValueError` is raised. -/
def runLoop (op : Nat → Table → Except DBError Table) (maxRetries : Int)
    (committed : Table) :
    List Nat → Table → Nat → Nat × Table × Option RunError
  | [], pending, calls =>
      (calls, pending, some (RunError.retryExhausted maxRetries))
  | retry :: rest, pending, calls =>
      match op retry pending with
      | Except.ok t => (calls + 1, t, none)
      | Except.error e =>
          if e.isSerializationFailure then
            runLoop op maxRetries committed rest committed (calls + 1)
          else
            (calls + 1, pending, some (RunError.dbError e))

/-- `range(1, max_retries + 1)`: the 1-based attempt numbers.  Empty whenever
`max_retries <= 0`. -/
def attemptList (maxRetries : Int) : List Nat :=
  List.range' 1 maxRetries.toNat

/-- `run_transaction(conn, op, max_retries)`: run the loop inside
`with conn.transaction()`.  Leaving the scope normally commits the pending
state; leaving it with an exception discards the pending state (rollback) and
the exception propagates. -/
def run_transaction (op : Nat → Table → Except DBError Table) (t : Table)
    (maxRetries : Int) : RunOutcome :=
  match runLoop op maxRetries t (attemptList maxRetries) t 0 with
  | (calls, pending, none) => ⟨calls, pending, none⟩
  | (calls, _, some e) => ⟨calls, t, some e⟩

/-- `sleep_seconds = (2**retry) * 0.1 * (random.random() + 0.5)`, with the
uniform sample `u` made explicit and reals modelled exactly as rationals. -/
def sleep_seconds (retry : Nat) (u : ℚ) : ℚ :=
  (2 ^ retry : ℚ) * (1 / 10) * (u + 1 / 2)

/-- The unit of work used to witness retry exhaustion: every invocation
raises a serialization failure. -/
def opAlwaysConflict : Nat → Table → Except DBError Table :=
  fun _ _ => Except.error DBError.serializationFailure

/-- A unit of work that conflicts on attempts 1 and 2 and performs the demo
transfer (100 from account 0 to account 1) on attempt 3. -/
def opConflictTwice : Nat → Table → Except DBError Table :=
  fun n s =>
    if n ≤ 2 then Except.error DBError.serializationFailure
    else transfer_funds s 0 1 100

/-- A unit of work that always raises a non-serialization `psycopg.Error`. -/
def opFatal : Nat → Table → Except DBError Table :=
  fun _ _ => Except.error DBError.otherPsycopgError

/-- The demo's initial table: two accounts with balances 1000 and 250. -/
def demoTable : Table := [(0, 1000), (1, 250)]

/-! ### Lemmas about the table operations -/

theorem selectBalance_cons (r : AccountId × Int) (t : Table) (i : AccountId) :
    selectBalance (r :: t) i =
      if r.1 == i then some r.2 else selectBalance t i := by
  cases h : (r.1 == i) <;> simp [selectBalance, List.find?_cons, h]

theorem updateAdd_cons (r : AccountId × Int) (t : Table) (i : AccountId)
    (d : Int) :
    updateAdd (r :: t) i d =
      (if r.1 == i then (r.1, r.2 + d) else r) :: updateAdd t i d := rfl

theorem selectBalance_cons_true {r : AccountId × Int} {t : Table}
    {i : AccountId} (h : (r.1 == i) = true) :
    selectBalance (r :: t) i = some r.2 := by
  simp [selectBalance_cons, h]

theorem selectBalance_cons_false {r : AccountId × Int} {t : Table}
    {i : AccountId} (h : (r.1 == i) = false) :
    selectBalance (r :: t) i = selectBalance t i := by
  simp [selectBalance_cons, h]

theorem updateAdd_cons_true {r : AccountId × Int} {t : Table} {i : AccountId}
    (d : Int) (h : (r.1 == i) = true) :
    updateAdd (r :: t) i d = (r.1, r.2 + d) :: updateAdd t i d := by
  simp [updateAdd_cons, h]

theorem updateAdd_cons_false {r : AccountId × Int} {t : Table} {i : AccountId}
    (d : Int) (h : (r.1 == i) = false) :
    updateAdd (r :: t) i d = r :: updateAdd t i d := by
  simp [updateAdd_cons, h]

theorem selectBalance_updateAdd_self (t : Table) (i : AccountId) (d : Int) :
    selectBalance (updateAdd t i d) i =
      (selectBalance t i).map (fun b => b + d) := by
  induction t with
  | nil => rfl
  | cons r t ih =>
      cases h : (r.1 == i) with
      | true =>
          rw [updateAdd_cons_true d h,
            selectBalance_cons_true (show (((r.1, r.2 + d)).1 == i) = true from h),
            selectBalance_cons_true h]
          rfl
      | false =>
          rw [updateAdd_cons_false d h, selectBalance_cons_false h,
            selectBalance_cons_false h, ih]

theorem selectBalance_updateAdd_ne (t : Table) {i j : AccountId} (d : Int)
    (h : j ≠ i) :
    selectBalance (updateAdd t i d) j = selectBalance t j := by
  induction t with
  | nil => rfl
  | cons r t ih =>
      cases hri : (r.1 == i) with
      | true =>
          have hr1 : r.1 = i := by simpa using hri
          have hrj : (r.1 == j) = false := by
            simp [hr1, Ne.symm h]
          rw [updateAdd_cons_true d hri,
            selectBalance_cons_false (show (((r.1, r.2 + d)).1 == j) = false from hrj),
            selectBalance_cons_false hrj, ih]
      | false =>
          rw [updateAdd_cons_false d hri]
          cases hrj : (r.1 == j) with
          | true =>
              rw [selectBalance_cons_true hrj, selectBalance_cons_true hrj]
          | false =>
              rw [selectBalance_cons_false hrj, selectBalance_cons_false hrj,
                ih]

theorem updateAdd_map_fst (t : Table) (i : AccountId) (d : Int) :
    (updateAdd t i d).map Prod.fst = t.map Prod.fst := by
  induction t with
  | nil => rfl
  | cons r t ih =>
      cases h : (r.1 == i) with
      | true => rw [updateAdd_cons_true d h]; simp [ih]
      | false => rw [updateAdd_cons_false d h]; simp [ih]

theorem updateAdd_of_none (t : Table) (i : AccountId) (d : Int)
    (h : selectBalance t i = none) : updateAdd t i d = t := by
  induction t with
  | nil => rfl
  | cons r t ih =>
      cases hri : (r.1 == i) with
      | true => rw [selectBalance_cons_true hri] at h; exact absurd h (by simp)
      | false =>
          rw [selectBalance_cons_false hri] at h
          rw [updateAdd_cons_false d hri, ih h]

theorem tableSum_cons (r : AccountId × Int) (t : Table) :
    tableSum (r :: t) = r.2 + tableSum t := by
  simp [tableSum]

theorem tableSum_updateAdd (t : Table) (i : AccountId) (d b : Int)
    (hnd : (t.map Prod.fst).Nodup) (h : selectBalance t i = some b) :
    tableSum (updateAdd t i d) = tableSum t + d := by
  induction t with
  | nil => simp [selectBalance] at h
  | cons r t ih =>
      rw [List.map_cons] at hnd
      cases hri : (r.1 == i) with
      | true =>
          have hr1 : r.1 = i := by simpa using hri
          have hnotin : r.1 ∉ t.map Prod.fst := (List.nodup_cons.mp hnd).1
          have hnone : selectBalance t i = none := by
            simp only [selectBalance, Option.map_eq_none', List.find?_eq_none]
            intro x hx
            simp only [beq_iff_eq]
            intro hxe
            exact hnotin (by
              rw [hr1, ← hxe]
              exact List.mem_map_of_mem Prod.fst hx)
          rw [updateAdd_cons_true d hri, updateAdd_of_none t i d hnone,
            tableSum_cons, tableSum_cons]
          ring
      | false =>
          rw [selectBalance_cons_false hri] at h
          have hnd' : (t.map Prod.fst).Nodup := (List.nodup_cons.mp hnd).2
          rw [updateAdd_cons_false d hri, tableSum_cons, tableSum_cons,
            ih hnd' h]
          ring

/-! ### Lemmas about the retry loop -/

theorem runLoop_nil (op : Nat → Table → Except DBError Table) (m : Int)
    (c p : Table) (calls : Nat) :
    runLoop op m c [] p calls =
      (calls, p, some (RunError.retryExhausted m)) := rfl

theorem runLoop_cons_ok {op : Nat → Table → Except DBError Table} {a : Nat}
    {p t : Table} (m : Int) (c : Table) (rest : List Nat) (calls : Nat)
    (h : op a p = Except.ok t) :
    runLoop op m c (a :: rest) p calls = (calls + 1, t, none) := by
  simp [runLoop, h]

theorem runLoop_cons_conflict {op : Nat → Table → Except DBError Table}
    {a : Nat} {p : Table} (m : Int) (c : Table) (rest : List Nat) (calls : Nat)
    (h : op a p = Except.error DBError.serializationFailure) :
    runLoop op m c (a :: rest) p calls =
      runLoop op m c rest c (calls + 1) := by
  simp [runLoop, h, DBError.isSerializationFailure]

theorem runLoop_cons_fatal {op : Nat → Table → Except DBError Table} {a : Nat}
    {p : Table} {e : DBError} (m : Int) (c : Table) (rest : List Nat)
    (calls : Nat) (h : op a p = Except.error e)
    (he : e.isSerializationFailure = false) :
    runLoop op m c (a :: rest) p calls =
      (calls + 1, p, some (RunError.dbError e)) := by
  simp [runLoop, h, he]

/-- Attempts that all fail with a serialization failure are consumed one by
one: after `j` conflicting attempts the loop continues with the remaining
attempt numbers, rolled back to the committed state, with `j` more calls. -/
theorem runLoop_skip_conflicts (op : Nat → Table → Except DBError Table)
    (m : Int) (c : Table) :
    ∀ (j s n acc : Nat), j ≤ n →
      (∀ i s', i < j →
        op (s + i) s' = Except.error DBError.serializationFailure) →
      runLoop op m c (List.range' s n) c acc =
        runLoop op m c (List.range' (s + j) (n - j)) c (acc + j) := by
  intro j
  induction j with
  | zero => intro s n acc _ _; rfl
  | succ j ih =>
      intro s n acc hjn hop
      obtain ⟨n', rfl⟩ : ∃ n', n = n' + 1 := ⟨n - 1, by omega⟩
      rw [List.range'_succ]
      have h0 : op s c = Except.error DBError.serializationFailure := by
        simpa using hop 0 c (by omega)
      rw [runLoop_cons_conflict m c _ acc h0]
      have hrec := ih (s + 1) n' (acc + 1) (by omega) (fun i s' hi => by
        have h1 := hop (i + 1) s' (by omega)
        have e : s + (i + 1) = s + 1 + i := by omega
        rw [e] at h1
        exact h1)
      rw [hrec]
      have e1 : s + 1 + j = s + (j + 1) := by omega
      have e2 : n' - j = n' + 1 - (j + 1) := by omega
      have e3 : acc + 1 + j = acc + (j + 1) := by omega
      rw [e1, e2, e3]

/-! ### Claims about `transfer_funds` -/

/-- Claim C1: for every successful invocation of `transfer_funds` moving a
positive amount `a` from a source account with balance `b1` to a (distinct,
existing) destination account with balance `b2`, the post-state has source
balance `b1 - a` and destination balance `b2 + a`, the sum of the two balances
is unchanged, and (ids being unique, as the primary key guarantees) the total
of all balances is unchanged. -/
theorem C1_transfer_success_balances
    (t t' : Table) (frm toId : AccountId) (amount b1 b2 : Int)
    (hne : frm ≠ toId) (hpos : 0 < amount)
    (hb1 : selectBalance t frm = some b1)
    (hb2 : selectBalance t toId = some b2)
    (hnd : (t.map Prod.fst).Nodup)
    (hok : transfer_funds t frm toId amount = Except.ok t') :
    selectBalance t' frm = some (b1 - amount) ∧
    selectBalance t' toId = some (b2 + amount) ∧
    (b1 - amount) + (b2 + amount) = b1 + b2 ∧
    tableSum t' = tableSum t := by
  simp only [transfer_funds, hb1] at hok
  by_cases hlt : b1 < amount
  · rw [if_pos hlt] at hok
    exact absurd hok (by simp)
  · rw [if_neg hlt] at hok
    have ht' : t' = updateAdd (updateAdd t frm (-amount)) toId amount := by
      simpa [eq_comm] using hok
    subst ht'
    refine ⟨?_, ?_, by ring, ?_⟩
    · rw [selectBalance_updateAdd_ne _ amount hne,
        selectBalance_updateAdd_self, hb1]
      simp [sub_eq_add_neg]
    · rw [selectBalance_updateAdd_self,
        selectBalance_updateAdd_ne t (-amount) (Ne.symm hne), hb2]
      rfl
    · have hb2' : selectBalance (updateAdd t frm (-amount)) toId = some b2 := by
        rw [selectBalance_updateAdd_ne t (-amount) (Ne.symm hne)]
        exact hb2
      have hnd' : ((updateAdd t frm (-amount)).map Prod.fst).Nodup := by
        rw [updateAdd_map_fst]
        exact hnd
      rw [tableSum_updateAdd _ toId amount b2 hnd' hb2',
        tableSum_updateAdd t frm (-amount) b1 hnd hb1]
      ring

/-- Witness for C1: the demo scenario, transferring 100 from account 0
(balance 1000) to account 1 (balance 250) yields balances 900 and 350. -/
theorem C1_transfer_success_balances_witness :
    selectBalance [((0 : AccountId), (900 : Int)), (1, 350)] 0 =
      some (1000 - 100) ∧
    selectBalance [((0 : AccountId), (900 : Int)), (1, 350)] 1 =
      some (250 + 100) ∧
    ((1000 : Int) - 100) + (250 + 100) = 1000 + 250 ∧
    tableSum [((0 : AccountId), (900 : Int)), (1, 350)] = tableSum demoTable :=
  C1_transfer_success_balances demoTable [(0, 900), (1, 350)] 0 1 100 1000 250
    (by decide) (by decide) rfl rfl (by decide) rfl

/-- Claim C2: whenever the source balance `b` is below the requested amount,
`transfer_funds` fails with the insufficient-funds error carrying the source
id, the required amount and the available balance, and running it under
`run_transaction` leaves the committed table unchanged (and does not retry:
one single invocation). -/
theorem C2_transfer_insufficient
    (t : Table) (frm toId : AccountId) (amount b : Int)
    (hb : selectBalance t frm = some b) (hlt : b < amount) :
    transfer_funds t frm toId amount =
      Except.error (DBError.insufficientFunds frm amount b) ∧
    run_transaction (fun _ s => transfer_funds s frm toId amount) t 3 =
      ⟨1, t, some (RunError.dbError (DBError.insufficientFunds frm amount b))⟩ := by
  have h1 : transfer_funds t frm toId amount =
      Except.error (DBError.insufficientFunds frm amount b) := by
    simp only [transfer_funds, hb]
    rw [if_pos hlt]
  refine ⟨h1, ?_⟩
  have hloop :
      runLoop (fun _ s => transfer_funds s frm toId amount) 3 t
        (attemptList 3) t 0 =
      (1, t, some (RunError.dbError (DBError.insufficientFunds frm amount b))) := by
    show runLoop (fun _ s => transfer_funds s frm toId amount) 3 t
        (1 :: [2, 3]) t 0 = _
    exact runLoop_cons_fatal 3 t [2, 3] 0 h1 rfl
  unfold run_transaction
  rw [hloop]

/-- Witness for C2: the demo scenario, transferring 2000 out of account 1
(balance 250) fails and leaves the table untouched. -/
theorem C2_transfer_insufficient_witness :
    transfer_funds demoTable 1 0 2000 =
      Except.error (DBError.insufficientFunds 1 2000 250) ∧
    run_transaction (fun _ s => transfer_funds s 1 0 2000) demoTable 3 =
      ⟨1, demoTable,
        some (RunError.dbError (DBError.insufficientFunds 1 2000 250))⟩ :=
  C2_transfer_insufficient demoTable 1 0 2000 250 rfl (by decide)

/-- Claim C8: `transfer_funds` does not enforce the positive-amount
precondition: for any amount `a ≤ 0` with source balance `b1 ≥ a`, the
insufficient-funds guard does not fire and the writes are applied anyway,
subtracting the non-positive `a` from the source and adding it to the
destination, without any error. -/
theorem C8_transfer_nonpositive_amount
    (t : Table) (frm toId : AccountId) (amount b1 b2 : Int)
    (hne : frm ≠ toId) (hnp : amount ≤ 0)
    (hb1 : selectBalance t frm = some b1) (hge : amount ≤ b1)
    (hb2 : selectBalance t toId = some b2) :
    transfer_funds t frm toId amount =
      Except.ok (updateAdd (updateAdd t frm (-amount)) toId amount) ∧
    selectBalance (updateAdd (updateAdd t frm (-amount)) toId amount) frm =
      some (b1 - amount) ∧
    selectBalance (updateAdd (updateAdd t frm (-amount)) toId amount) toId =
      some (b2 + amount) := by
  have hok : transfer_funds t frm toId amount =
      Except.ok (updateAdd (updateAdd t frm (-amount)) toId amount) := by
    simp only [transfer_funds, hb1]
    rw [if_neg (not_lt.mpr hge)]
  refine ⟨hok, ?_, ?_⟩
  · rw [selectBalance_updateAdd_ne _ amount hne,
      selectBalance_updateAdd_self, hb1]
    simp [sub_eq_add_neg]
  · rw [selectBalance_updateAdd_self,
      selectBalance_updateAdd_ne t (-amount) (Ne.symm hne), hb2]
    rfl

/-- Witness for C8: transferring the non-positive amount -50 from account 0
to account 1 of the demo table succeeds and moves 50 in the reverse
direction (balances become 1050 and 200). -/
theorem C8_transfer_nonpositive_amount_witness :
    transfer_funds demoTable 0 1 (-50) =
      Except.ok (updateAdd (updateAdd demoTable 0 (-(-50))) 1 (-50)) ∧
    selectBalance (updateAdd (updateAdd demoTable 0 (-(-50))) 1 (-50)) 0 =
      some (1000 - (-50)) ∧
    selectBalance (updateAdd (updateAdd demoTable 0 (-(-50))) 1 (-50)) 1 =
      some (250 + (-50)) :=
  C8_transfer_nonpositive_amount demoTable 0 1 (-50) 1000 250 (by decide)
    (by decide) rfl (by decide) rfl

/-- Claim C10: `transfer_funds` never reads the destination account: when the
destination id matches no row (and the source check passes), the operation
completes without error, only the source debit takes effect, and the total of
all balances decreases by the transferred amount. -/
theorem C10_transfer_missing_destination
    (t : Table) (frm toId : AccountId) (amount b : Int)
    (hb : selectBalance t frm = some b) (hge : amount ≤ b)
    (hto : selectBalance t toId = none)
    (hnd : (t.map Prod.fst).Nodup) :
    transfer_funds t frm toId amount = Except.ok (updateAdd t frm (-amount)) ∧
    selectBalance (updateAdd t frm (-amount)) frm = some (b - amount) ∧
    tableSum (updateAdd t frm (-amount)) = tableSum t - amount := by
  have hne : toId ≠ frm := by
    intro he
    rw [he, hb] at hto
    exact Option.noConfusion hto
  have hnone : selectBalance (updateAdd t frm (-amount)) toId = none := by
    rw [selectBalance_updateAdd_ne t (-amount) hne]
    exact hto
  have hok : transfer_funds t frm toId amount =
      Except.ok (updateAdd (updateAdd t frm (-amount)) toId amount) := by
    simp only [transfer_funds, hb]
    rw [if_neg (not_lt.mpr hge)]
  rw [updateAdd_of_none _ toId amount hnone] at hok
  refine ⟨hok, ?_, ?_⟩
  · rw [selectBalance_updateAdd_self, hb]
    simp [sub_eq_add_neg]
  · rw [tableSum_updateAdd t frm (-amount) b hnd hb]
    ring

/-- Witness for C10: a table holding only account 0 with balance 1000; a
transfer of 100 to the absent account 7 succeeds, debits the source to 900,
and shrinks the table total by 100. -/
theorem C10_transfer_missing_destination_witness :
    transfer_funds [((0 : AccountId), (1000 : Int))] 0 7 100 =
      Except.ok (updateAdd [((0 : AccountId), (1000 : Int))] 0 (-100)) ∧
    selectBalance (updateAdd [((0 : AccountId), (1000 : Int))] 0 (-100)) 0 =
      some (1000 - 100) ∧
    tableSum (updateAdd [((0 : AccountId), (1000 : Int))] 0 (-100)) =
      tableSum [((0 : AccountId), (1000 : Int))] - 100 :=
  C10_transfer_missing_destination [(0, 1000)] 0 7 100 1000 rfl (by decide) rfl
    (by decide)

/-! ### Claims about `run_transaction` -/

/-- Claim C3: for `max_retries ≥ 1`, when the operation raises a
serialization failure on every invocation, `run_transaction` invokes it
exactly `max_retries` times, fails with the exhaustion error carrying
`max_retries`, and the committed table is unchanged. -/
theorem C3_retry_exhaustion
    (op : Nat → Table → Except DBError Table) (t : Table) (m : Int)
    (hm : 1 ≤ m)
    (hop : ∀ n s, op n s = Except.error DBError.serializationFailure) :
    run_transaction op t m =
      ⟨m.toNat, t, some (RunError.retryExhausted m)⟩ ∧
    (m.toNat : Int) = m := by
  have hloop : runLoop op m t (attemptList m) t 0 =
      (m.toNat, t, some (RunError.retryExhausted m)) := by
    unfold attemptList
    rw [runLoop_skip_conflicts op m t m.toNat 1 m.toNat 0 le_rfl
      (fun i s' _ => hop (1 + i) s')]
    rw [Nat.sub_self]
    show runLoop op m t [] t (0 + m.toNat) = _
    rw [runLoop_nil]
    simp
  refine ⟨?_, Int.toNat_of_nonneg (by omega)⟩
  unfold run_transaction
  rw [hloop]

/-- Witness for C3: the always-conflicting operation on the demo table with
`max_retries = 3` is attempted exactly 3 times, then exhaustion is reported
and the table is untouched. -/
theorem C3_retry_exhaustion_witness :
    (run_transaction opAlwaysConflict demoTable 3 =
      ⟨(3 : Int).toNat, demoTable, some (RunError.retryExhausted 3)⟩) ∧
    (((3 : Int).toNat : Int) = 3) :=
  C3_retry_exhaustion opAlwaysConflict demoTable 3 (by decide) (fun _ _ => rfl)

/-- Claim C4: when the operation raises a serialization failure on its first
`k < max_retries` invocations and succeeds on invocation `k + 1`,
`run_transaction` commits the successful result on attempt `k + 1`, makes no
further attempts and propagates no error. -/
theorem C4_eventual_success
    (op : Nat → Table → Except DBError Table) (t t' : Table) (m : Int)
    (k : Nat) (hk : (k : Int) < m)
    (hconf : ∀ i s', 1 ≤ i → i ≤ k →
      op i s' = Except.error DBError.serializationFailure)
    (hsucc : op (k + 1) t = Except.ok t') :
    run_transaction op t m = ⟨k + 1, t', none⟩ := by
  have hkn : k < m.toNat := by omega
  have hloop : runLoop op m t (attemptList m) t 0 = (k + 1, t', none) := by
    unfold attemptList
    rw [runLoop_skip_conflicts op m t k 1 m.toNat 0 (Nat.le_of_lt hkn)
      (fun i s' hi => hconf (1 + i) s' (by omega) (by omega))]
    obtain ⟨d, hd⟩ : ∃ d, m.toNat - k = d + 1 := ⟨m.toNat - k - 1, by omega⟩
    rw [hd, List.range'_succ]
    have h1 : op (1 + k) t = Except.ok t' := by
      have e1 : 1 + k = k + 1 := by omega
      rw [e1]
      exact hsucc
    rw [runLoop_cons_ok m t _ (0 + k) h1]
    simp
  unfold run_transaction
  rw [hloop]

/-- Witness for C4: an operation that conflicts on attempts 1 and 2 and
transfers 100 from account 0 to account 1 on attempt 3 commits the new
balances on attempt 3 = 2 + 1. -/
theorem C4_eventual_success_witness :
    run_transaction opConflictTwice demoTable 3 =
      ⟨2 + 1, [((0 : AccountId), (900 : Int)), (1, 350)], none⟩ :=
  C4_eventual_success opConflictTwice demoTable [(0, 900), (1, 350)] 3 2
    (by decide) (fun i s' h1 h2 => by simp [opConflictTwice, h2]) rfl

/-- Claim C5: a failure that is not a serialization failure, raised at any
attempt `k + 1` (after `k` serialization failures), is not retried: the
operation is invoked exactly `k + 1` times in total, the very same error
propagates out of `run_transaction`, and the transaction is aborted (the
committed table is the pre-state). -/
theorem C5_fatal_no_retry
    (op : Nat → Table → Except DBError Table) (t : Table) (m : Int)
    (k : Nat) (e : DBError) (hk : k < m.toNat)
    (hconf : ∀ i s', 1 ≤ i → i ≤ k →
      op i s' = Except.error DBError.serializationFailure)
    (hfatal : op (k + 1) t = Except.error e)
    (he : e.isSerializationFailure = false) :
    run_transaction op t m = ⟨k + 1, t, some (RunError.dbError e)⟩ := by
  have hloop : runLoop op m t (attemptList m) t 0 =
      (k + 1, t, some (RunError.dbError e)) := by
    unfold attemptList
    rw [runLoop_skip_conflicts op m t k 1 m.toNat 0 (Nat.le_of_lt hk)
      (fun i s' hi => hconf (1 + i) s' (by omega) (by omega))]
    obtain ⟨d, hd⟩ : ∃ d, m.toNat - k = d + 1 := ⟨m.toNat - k - 1, by omega⟩
    rw [hd, List.range'_succ]
    have h1 : op (1 + k) t = Except.error e := by
      have e1 : 1 + k = k + 1 := by omega
      rw [e1]
      exact hfatal
    rw [runLoop_cons_fatal m t _ (0 + k) h1 he]
    simp
  unfold run_transaction
  rw [hloop]

/-- Witness for C5: an operation that raises a non-serialization
`psycopg.Error` on its first invocation is invoked once (`0 + 1` times), the
same error propagates, and the demo table is unchanged. -/
theorem C5_fatal_no_retry_witness :
    run_transaction opFatal demoTable 3 =
      ⟨0 + 1, demoTable, some (RunError.dbError DBError.otherPsycopgError)⟩ :=
  C5_fatal_no_retry opFatal demoTable 3 0 DBError.otherPsycopgError
    (by decide) (fun i s' h1 h2 => by omega) rfl rfl

/-- Claim C6: whenever `run_transaction` terminates by propagating an error
(a fatal error or retry exhaustion), the committed table equals the
pre-invocation table: the transaction scope rolls back on every abnormal
exit, so no partial writes become visible. -/
theorem C6_rollback_on_error
    (op : Nat → Table → Except DBError Table) (t : Table) (m : Int)
    (e : RunError) (h : (run_transaction op t m).err = some e) :
    (run_transaction op t m).committed = t := by
  unfold run_transaction at h ⊢
  rcases hr : runLoop op m t (attemptList m) t 0 with ⟨calls, pending, err⟩
  cases err with
  | none =>
      rw [hr] at h
      exact Option.noConfusion h
  | some e' => rfl

/-- Witness for C6: the always-conflicting operation exhausts its retries
with an error, and the committed demo table is unchanged. -/
theorem C6_rollback_on_error_witness :
    (run_transaction opAlwaysConflict demoTable 3).committed = demoTable :=
  C6_rollback_on_error opAlwaysConflict demoTable 3
    (RunError.retryExhausted 3) rfl

/-- Claim C9: with `max_retries ≤ 0` the attempt loop body never executes:
the operation is invoked zero times, `run_transaction` immediately fails with
the exhaustion error carrying that `max_retries` value, and the committed
table is unchanged. -/
theorem C9_nonpositive_max_retries
    (op : Nat → Table → Except DBError Table) (t : Table) (m : Int)
    (hm : m ≤ 0) :
    run_transaction op t m = ⟨0, t, some (RunError.retryExhausted m)⟩ := by
  have h0 : m.toNat = 0 := Int.toNat_of_nonpos hm
  have hloop : runLoop op m t (attemptList m) t 0 =
      (0, t, some (RunError.retryExhausted m)) := by
    unfold attemptList
    rw [h0]
    exact runLoop_nil op m t t 0
  unfold run_transaction
  rw [hloop]

/-- Witness for C9: `max_retries = -2` yields zero invocations and the
exhaustion error carrying -2, with the demo table unchanged. -/
theorem C9_nonpositive_max_retries_witness :
    run_transaction opAlwaysConflict demoTable (-2) =
      ⟨0, demoTable, some (RunError.retryExhausted (-2))⟩ :=
  C9_nonpositive_max_retries opAlwaysConflict demoTable (-2) (by decide)

/-! ### Claim about the backoff delay -/

/-- Claim C7: after a conflict on 1-based attempt `retry`, the computed delay
is `(2 ^ retry) * 0.1 * (u + 0.5)` for a uniform sample `u ∈ [0, 1)`; hence
the delay lies in `[2 ^ retry * 0.05, 2 ^ retry * 0.15)` and its lower bound
`(2 ^ retry) * 0.1 * 0.5` strictly increases with the attempt number. -/
theorem C7_backoff_formula (retry : Nat) (u : ℚ) (h0 : 0 ≤ u) (h1 : u < 1) :
    sleep_seconds retry u = (2 ^ retry : ℚ) * (1 / 10) * (u + 1 / 2) ∧
    (2 ^ retry : ℚ) * (1 / 10) * (1 / 2) ≤ sleep_seconds retry u ∧
    sleep_seconds retry u < (2 ^ retry : ℚ) * (1 / 10) * (3 / 2) ∧
    (∀ a b : Nat, a < b →
      (2 ^ a : ℚ) * (1 / 10) * (1 / 2) < (2 ^ b : ℚ) * (1 / 10) * (1 / 2)) := by
  have hp : (0 : ℚ) < 2 ^ retry := by positivity
  refine ⟨rfl, ?_, ?_, ?_⟩
  · unfold sleep_seconds
    nlinarith
  · unfold sleep_seconds
    nlinarith
  · intro a b hab
    have h2 : (2 : ℚ) ^ a < 2 ^ b := pow_lt_pow_right₀ (by norm_num) hab
    linarith [mul_lt_mul_of_pos_right h2
      (show (0 : ℚ) < 1 / 10 * (1 / 2) by norm_num)]

/-- Witness for C7: attempt 1 with uniform sample 1/2: the delay is 0.2,
inside [0.1, 0.3), and the lower bound is monotone. -/
theorem C7_backoff_formula_witness :
    sleep_seconds 1 (1 / 2) = (2 ^ 1 : ℚ) * (1 / 10) * (1 / 2 + 1 / 2) ∧
    (2 ^ 1 : ℚ) * (1 / 10) * (1 / 2) ≤ sleep_seconds 1 (1 / 2) ∧
    sleep_seconds 1 (1 / 2) < (2 ^ 1 : ℚ) * (1 / 10) * (3 / 2) ∧
    (∀ a b : Nat, a < b →
      (2 ^ a : ℚ) * (1 / 10) * (1 / 2) < (2 ^ b : ℚ) * (1 / 10) * (1 / 2)) :=
  C7_backoff_formula 1 (1 / 2) (by norm_num) (by norm_num)

end ExampleApp
